import Mathlib

/-!
# Video converter queue: the backend handlers

A shallow embedding of `backend/main.go`: the `videos` table, the
`processedPaths` cache and the four HTTP handlers, followed by the properties
of the queue and deduplication logic.

Conventions of the embedding.

* The table `videos` is a list of rows in insertion order. Its state changes
  only through the statements the handlers send.
* Every call of `db.Exec`, `db.Query` or `db.QueryRow` takes an argument
  `fault : Option String`: `some msg` when the driver returns an error for a
  reason outside the table (connection, encoding), in which case the statement
  has no effect; `none` when the statement runs.
* `c.ShouldBindJSON` and `c.ShouldBindQuery` are represented by their result,
  an `Except String _`.
* A handler returns the HTTP reply it writes with `c.JSON`, together with the
  new server state when it can change it.
* Go's `int` is 64 bits wide; arithmetic on it goes through `wrap64`.
* `addToQueue` and `updateVideoStatus` send their values as statement
  parameters (`$1`, `$2`, ...). `getQueue` writes the `status` parameter into
  the statement text. When the parameter stays inside the SQL literal it is
  written into (`plainLiteral`), the statement is the `SELECT` with `WHERE`,
  `ORDER BY`, `LIMIT` and `OFFSET` that the handler spells out, and the model
  computes its result. Otherwise the text is another statement, and its result
  is whatever the database (`Postgres.rawCount`, `Postgres.rawQuery`) makes of
  that text.
-/

namespace Backend

/-! ## Data model -/

/-- The Go struct `Video`. -/
structure Video where
  ID : String
  Path : String
  Resolution : String
  Bitrate : String
  Status : String
  OriginalSize : Int
deriving DecidableEq, Repr

/-- The Go struct `VideoQueue`. -/
structure VideoQueue where
  Pending : List Video
  Processing : List Video
  Completed : List Video
  Total : Int
deriving DecidableEq, Repr

/-- The Go struct `PaginationParams`, after binding. -/
structure PaginationParams where
  Page : Int
  PageSize : Int
  Status : String
deriving DecidableEq, Repr

/-- A row of the table `videos` created in `initDB`: `id TEXT PRIMARY KEY`,
`path TEXT NOT NULL`, `resolution TEXT`, `bitrate TEXT`, `status TEXT NOT NULL`,
`original_size BIGINT NOT NULL`. Rows enter the table through `addToQueue`
only, which binds a Go value to each of the six columns, so no column of a row
is NULL. -/
structure Row where
  id : String
  path : String
  resolution : String
  bitrate : String
  status : String
  original_size : Int
deriving DecidableEq, Repr

/-- The `pagination` object of the `getQueue` reply. -/
structure Pagination where
  page : Int
  pageSize : Int
  total : Int
  pages : Int
deriving DecidableEq, Repr

/-- The JSON bodies the handlers write. -/
inductive Body where
  | error (msg : String)
  | videos (vs : List Video)
  | video (v : Video)
  | status (s : String)
  | queue (queue : VideoQueue) (pagination : Pagination)
deriving DecidableEq, Repr

/-- An HTTP reply: status code and JSON body. -/
structure Reply where
  code : Nat
  body : Body
deriving DecidableEq, Repr

def StatusOK : Nat := 200
def StatusBadRequest : Nat := 400
def StatusInternalServerError : Nat := 500

/-- The status code that would stand for a missing record; no handler uses it. -/
def StatusNotFound : Nat := 404

/-- The two package-level variables: the table behind `db` and the
`processedPaths` map. The map only ever holds the value `true`, so it is
represented by the list of its keys. -/
structure Server where
  db : List Row
  processedPaths : List String
deriving DecidableEq, Repr

/-- The map read `processedPaths[path]`: `false` for an absent key. -/
def lookup (m : List String) (path : String) : Bool :=
  decide (path ∈ m)

/-- The map write `processedPaths[path] = true`. -/
def setTrue (m : List String) (path : String) : List String :=
  if path ∈ m then m else m ++ [path]

/-! ## Statements on the table -/

/-- The error the primary key raises. -/
def duplicateKey : String :=
  "pq: duplicate key value violates unique constraint videos_pkey"

/-- The statement `INSERT INTO videos (...) VALUES ($1, ..., $6)`. The only
constraint a row of Go values can violate is the primary key on `id`. -/
def execInsert (fault : Option String) (db : List Row) (r : Row) :
    Except String (List Row) :=
  match fault with
  | some msg => .error msg
  | none => if db.any (fun x => x.id == r.id) then .error duplicateKey else .ok (db ++ [r])

/-- The statement `UPDATE videos SET status = $1 WHERE id = $2`. It succeeds
whether or not a row matches. -/
def execUpdateStatus (fault : Option String) (db : List Row) (status id : String) :
    Except String (List Row) :=
  match fault with
  | some msg => .error msg
  | none => .ok (db.map (fun x => if x.id == id then { x with status := status } else x))

/-- The statement `SELECT path FROM videos`. -/
def queryPaths (fault : Option String) (db : List Row) : Except String (List String) :=
  match fault with
  | some msg => .error msg
  | none => .ok (db.map (fun x => x.path))

/-! ## The cache -/

/-- The function `refreshProcessedPathsCache`: a fresh map, filled with every
path the table returns; left empty when the query fails. `path` is `NOT NULL`,
so `rows.Scan` into a string does not fail. -/
def refreshProcessedPathsCache (fault : Option String) (s : Server) : Server :=
  match queryPaths fault s.db with
  | .error _ => { s with processedPaths := [] }
  | .ok paths => { s with processedPaths := paths.foldl setTrue [] }

/-! ## Discovery -/

/-- Go's `os.IsPathSeparator` on Unix. -/
def isPathSeparator (c : Char) : Bool := c == '/'

/-- The loop of `filepath.Ext`, run from the last character backwards: `rev` is
the part of the path not yet inspected, reversed; `acc` the part already
passed. -/
def extLoop : List Char → List Char → List Char
  | [], _ => []
  | c :: rev, acc =>
    if isPathSeparator c then []
    else if c == '.' then c :: acc
    else extLoop rev (c :: acc)

/-- Go's `filepath.Ext`: the suffix beginning at the last dot of the last
element of the path, empty if there is none. -/
def Ext (path : String) : String :=
  String.mk (extLoop path.data.reverse [])

/-- Go's `filepath.Base` on Unix. -/
def Base (path : String) : String :=
  if path = "" then "."
  else
    let stripped := (path.data.reverse.dropWhile isPathSeparator).reverse
    let last := (stripped.reverse.takeWhile (fun c => !isPathSeparator c)).reverse
    if last = [] then "/" else String.mk last

/-- One call of the function passed to `filepath.Walk`: the path visited,
whether it is a directory, and the error the walk reports for it, if any. -/
structure WalkEntry where
  path : String
  isDir : Bool
  err : Option String
deriving DecidableEq, Repr

/-- The call `filepath.Walk(videosDir, ...)` of `getUnprocessedVideos`: the
visits in order, collecting in `videoPaths` the regular files with extension
`.mp4`; the first visit that carries an error ends the walk with it. -/
def walkVideos : List WalkEntry → List String → Except String (List String)
  | [], videoPaths => .ok videoPaths
  | e :: rest, videoPaths =>
    match e.err with
    | some err => .error err
    | none =>
      if !e.isDir && Ext e.path == ".mp4" then walkVideos rest (videoPaths ++ [e.path])
      else walkVideos rest videoPaths

/-- The function `getFileSize`: `stat` is `os.Stat`, `none` when it fails. -/
def getFileSize (stat : String → Option Int) (path : String) : Int :=
  match stat path with
  | none => 0
  | some size => size

/-- The record `getUnprocessedVideos` builds for a path. -/
def unprocessedVideo (stat : String → Option Int) (path : String) : Video :=
  { ID := Base path, Path := path, Resolution := "", Bitrate := "",
    Status := "unprocessed", OriginalSize := getFileSize stat path }

/-- The handler `getUnprocessedVideos`. -/
def getUnprocessedVideos (s : Server) (walk : List WalkEntry)
    (stat : String → Option Int) : Reply :=
  match walkVideos walk [] with
  | .error err => ⟨StatusInternalServerError, .error err⟩
  | .ok videoPaths =>
    ⟨StatusOK, .videos
      ((videoPaths.filter (fun path => !lookup s.processedPaths path)).map
        (unprocessedVideo stat))⟩

/-! ## Enqueue and status update -/

/-- The row `addToQueue` inserts: the six bound values of the statement, the
fifth being the literal `"pending"`. -/
def insertedRow (video : Video) : Row :=
  { id := video.ID, path := video.Path, resolution := video.Resolution,
    bitrate := video.Bitrate, status := "pending",
    original_size := video.OriginalSize }

/-- The handler `addToQueue`. -/
def addToQueue (s : Server) (fault : Option String) (bound : Except String Video) :
    Reply × Server :=
  match bound with
  | .error err => (⟨StatusBadRequest, .error err⟩, s)
  | .ok video =>
    match execInsert fault s.db (insertedRow video) with
    | .error err => (⟨StatusInternalServerError, .error err⟩, s)
    | .ok db =>
      (⟨StatusOK, .video video⟩,
        { db := db, processedPaths := setTrue s.processedPaths video.Path })

/-- The handler `updateVideoStatus`; `bound` is the `status` field of the body. -/
def updateVideoStatus (s : Server) (fault : Option String) (id : String)
    (bound : Except String String) : Reply × Server :=
  match bound with
  | .error err => (⟨StatusBadRequest, .error err⟩, s)
  | .ok status =>
    match execUpdateStatus fault s.db status id with
    | .error err => (⟨StatusInternalServerError, .error err⟩, s)
    | .ok db => (⟨StatusOK, .status "updated"⟩, { s with db := db })

/-- A request that can change the server state. -/
inductive Request where
  | enqueue (fault : Option String) (bound : Except String Video)
  | updateStatus (fault : Option String) (id : String) (bound : Except String String)

/-- The state after one request. -/
def step (s : Server) : Request → Server
  | .enqueue fault bound => (addToQueue s fault bound).2
  | .updateStatus fault id bound => (updateVideoStatus s fault id bound).2

/-- The state after a sequence of requests. -/
def run (s : Server) (reqs : List Request) : Server :=
  reqs.foldl step s

/-! ## The queue view -/

/-- Go's `int` arithmetic: the value of a result in 64-bit two's complement. -/
def wrap64 (x : Int) : Int :=
  (x + 2 ^ 63) % 2 ^ 64 - 2 ^ 63

/-- The order in which the database compares two `TEXT` values: the collation
of the database, which the program does not choose. `le a b` says that `a`
sorts no later than `b`. -/
structure Collation where
  le : String → String → Bool
  total : ∀ a b, le a b = true ∨ le b a = true
  trans : ∀ a b c, le a b = true → le b c = true → le a c = true

/-- What the program does not fix about the database server: its collation,
and how it reads a statement whose text was changed by the characters of the
`status` parameter (see `plainLiteral`). Nothing is assumed about the
latter. -/
structure Postgres where
  collate : Collation
  rawCount : String → List Row → Except String Int
  rawQuery : String → List Row → Except String (List Row)

def baseQuery : String :=
  "SELECT id, path, resolution, bitrate, status, original_size FROM videos"

def countQuery : String :=
  "SELECT COUNT(*) FROM videos"

/-- The `whereClause` of `getQueue`: the parameter is placed between two quote
characters, as `fmt.Sprintf(" WHERE status = '%s'", params.Status)` does. -/
def whereClause (status : String) : String :=
  if status ≠ "" then " WHERE status = '" ++ status ++ "'" else ""

/-- The text of the statement `getQueue` sends for the rows of a page. -/
def selectText (status : String) (pageSize offset : Int) : String :=
  baseQuery ++ whereClause status ++
    " ORDER BY CASE status " ++
    "WHEN 'processing' THEN 1 " ++
    "WHEN 'pending' THEN 2 " ++
    "WHEN 'completed' THEN 3 " ++
    "ELSE 4 END, path" ++
    (" LIMIT " ++ toString pageSize ++ " OFFSET " ++ toString offset)

/-- The text of the statement `getQueue` sends for the total. -/
def countText (status : String) : String :=
  countQuery ++ whereClause status

/-- Whether every character of the parameter stays inside the SQL string
literal it is placed in: no quote (39), no backslash (92), no NUL. For such a
parameter the text built by `whereClause` is the comparison of `status` with
that literal. A quote in the parameter ends the literal early, and what
follows it is read as SQL. -/
def plainLiteral (status : String) : Bool :=
  status.data.all (fun c => c != Char.ofNat 39 && c != Char.ofNat 92 && c != Char.ofNat 0)

/-- The value of `CASE status WHEN 'processing' THEN 1 WHEN 'pending' THEN 2
WHEN 'completed' THEN 3 ELSE 4 END`. -/
def statusRank (status : String) : Nat :=
  if status = "processing" then 1
  else if status = "pending" then 2
  else if status = "completed" then 3
  else 4

/-- The order of `ORDER BY CASE ... END, path`: by rank, then by path. -/
def rowLe (coll : Collation) (a b : Row) : Bool :=
  decide (statusRank a.status < statusRank b.status) ||
    (decide (statusRank a.status = statusRank b.status) && coll.le a.path b.path)

/-- The rows the `WHERE` clause keeps: all of them when the parameter is
empty (no clause), those whose status equals it otherwise. -/
def matchesFilter (status : String) (r : Row) : Bool :=
  status == "" || r.status == status

/-- The rows of the table that pass the filter, in the order of the
`ORDER BY` clause. Rows that compare equal keep their table order. -/
def orderedRows (coll : Collation) (db : List Row) (status : String) : List Row :=
  (db.filter (matchesFilter status)).insertionSort (fun a b => rowLe coll a b = true)

/-- The call `db.QueryRow(countQuery + whereClause).Scan(&total)`, whose text
is `countText status`: the number of rows that pass the filter. -/
def queryRowCount (pg : Postgres) (fault : Option String) (db : List Row)
    (status : String) : Except String Int :=
  match fault with
  | some msg => .error msg
  | none =>
    if plainLiteral status then .ok ((db.filter (matchesFilter status)).length : Int)
    else pg.rawCount (countText status) db

/-- The call `db.Query(query)`, whose text is `selectText status pageSize
offset`: the window `LIMIT pageSize OFFSET offset` of the filtered, ordered
rows. The server rejects a negative `LIMIT` or `OFFSET`. -/
def queryRows (pg : Postgres) (fault : Option String) (db : List Row)
    (status : String) (pageSize offset : Int) : Except String (List Row) :=
  match fault with
  | some msg => .error msg
  | none =>
    if plainLiteral status then
      if pageSize < 0 then .error "pq: LIMIT must not be negative"
      else if offset < 0 then .error "pq: OFFSET must not be negative"
      else .ok (((orderedRows pg.collate db status).drop offset.toNat).take pageSize.toNat)
    else pg.rawQuery (selectText status pageSize offset) db

/-- One `rows.Scan` of `scanVideoRows`: the six columns of the row, copied
into a `Video`. No column is NULL, so the scan does not fail. -/
def scanRow (r : Row) : Video :=
  { ID := r.id, Path := r.path, Resolution := r.resolution, Bitrate := r.bitrate,
    Status := r.status, OriginalSize := r.original_size }

/-- The function `scanVideoRows`: every row scanned and appended, in order.
Its branch for a failed scan is not reached. -/
def scanVideoRows (rows : List Row) : List Video :=
  rows.map scanRow

/-- The body of the grouping loop of `getQueue`: the `switch` on the status. -/
def groupStep (queue : VideoQueue) (video : Video) : VideoQueue :=
  if video.Status = "pending" then { queue with Pending := queue.Pending ++ [video] }
  else if video.Status = "processing" then
    { queue with Processing := queue.Processing ++ [video] }
  else if video.Status = "completed" then
    { queue with Completed := queue.Completed ++ [video] }
  else queue

/-- The grouping loop of `getQueue`, from the three empty buckets. -/
def groupVideos (videos : List Video) (total : Int) : VideoQueue :=
  videos.foldl groupStep { Pending := [], Processing := [], Completed := [], Total := total }

/-- The block "Validate and set defaults" of `getQueue`. -/
def validate (params : PaginationParams) : PaginationParams :=
  let params := if params.Page < 1 then { params with Page := 1 } else params
  if params.PageSize < 1 ∨ params.PageSize > 100 then { params with PageSize := 10 }
  else params

/-- The `offset` of `getQueue`, computed from the validated parameters. -/
def pageOffset (params : PaginationParams) : Int :=
  wrap64 ((params.Page - 1) * params.PageSize)

/-- The `pages` entry of the reply: `(total + params.PageSize - 1) / params.PageSize`
in Go's `int`, whose division truncates. -/
def pageCount (total pageSize : Int) : Int :=
  (wrap64 (total + pageSize - 1)).tdiv pageSize

/-- The handler `getQueue`. `countFault` and `queryFault` are the faults of its
two statements. -/
def getQueue (pg : Postgres) (db : List Row) (countFault queryFault : Option String)
    (bound : Except String PaginationParams) : Reply :=
  match bound with
  | .error err => ⟨StatusBadRequest, .error err⟩
  | .ok params =>
    let params := validate params
    let offset := pageOffset params
    match queryRowCount pg countFault db params.Status with
    | .error err => ⟨StatusInternalServerError, .error err⟩
    | .ok total =>
      match queryRows pg queryFault db params.Status params.PageSize offset with
      | .error err => ⟨StatusInternalServerError, .error err⟩
      | .ok rows =>
        let videos := scanVideoRows rows
        ⟨StatusOK, .queue (groupVideos videos total)
          { page := params.Page, pageSize := params.PageSize, total := total,
            pages := pageCount total params.PageSize }⟩

/-- The comparison of two texts by code points, character by character: the
collation `C`. -/
def leChars : List Char → List Char → Bool
  | [], _ => true
  | _ :: _, [] => false
  | a :: as, b :: bs => decide (a < b) || (decide (a = b) && leChars as bs)

/-- The collation `C`: texts compared by code points. -/
def codePoints : Collation where
  le a b := leChars a.data b.data
  total a b := by
    show leChars a.data b.data = true ∨ leChars b.data a.data = true
    generalize a.data = x
    generalize b.data = y
    induction x generalizing y with
    | nil => simp [leChars]
    | cons c cs ih =>
      cases y with
      | nil => simp [leChars]
      | cons d ds =>
        simp only [leChars, Bool.or_eq_true, Bool.and_eq_true, decide_eq_true_eq]
        rcases lt_trichotomy c d with h | h | h
        · exact Or.inl (Or.inl h)
        · rcases ih ds with h2 | h2
          · exact Or.inl (Or.inr ⟨h, h2⟩)
          · exact Or.inr (Or.inr ⟨h.symm, h2⟩)
        · exact Or.inr (Or.inl h)
  trans a b c := by
    show leChars a.data b.data = true → leChars b.data c.data = true →
      leChars a.data c.data = true
    generalize a.data = x
    generalize b.data = y
    generalize c.data = z
    induction x generalizing y z with
    | nil => simp [leChars]
    | cons p ps ih =>
      cases y with
      | nil => simp [leChars]
      | cons q qs =>
        cases z with
        | nil => simp [leChars]
        | cons r rs =>
          simp only [leChars, Bool.or_eq_true, Bool.and_eq_true, decide_eq_true_eq]
          intro hxy hyz
          rcases hxy with h1 | ⟨h1, h1t⟩
          · rcases hyz with h2 | ⟨h2, -⟩
            · exact Or.inl (lt_trans h1 h2)
            · exact Or.inl (h2 ▸ h1)
          · rcases hyz with h2 | ⟨h2, h2t⟩
            · exact Or.inl (h1 ▸ h2)
            · exact Or.inr ⟨h1.trans h2, ih qs rs h1t h2t⟩

/-- The database used in the examples: collation `C`; statements outside the
modelled fragment are refused. -/
def plainPostgres : Postgres where
  collate := codePoints
  rawCount _ _ := .error "pq: syntax error"
  rawQuery _ _ := .error "pq: syntax error"

/-- A database that reads, as PostgreSQL does, the statements `getQueue` sends
for the parameters `' OR true --` and `' OR true ORDER BY 1 DESC --`. Two
dashes start a comment that runs to the end of the line, so of each statement
only the part before them is read: the condition `status = '' OR true` holds
for every row; the first count statement and the first page statement stop
there; the second pair goes on with `ORDER BY 1 DESC`, which leaves the single
row of a count alone and sorts the rows of a page by their first column, `id`,
downwards. Any other statement is refused. -/
def commentReading : Postgres where
  collate := codePoints
  rawCount text db :=
    if text = countQuery ++ " WHERE status = '' OR true --'" ∨
        text = countQuery ++ " WHERE status = '' OR true ORDER BY 1 DESC --'" then
      .ok (db.length : Int)
    else .error "pq: syntax error"
  rawQuery text db :=
    if (baseQuery ++ " WHERE status = '' OR true --").data.isPrefixOf text.data then .ok db
    else if (baseQuery ++ " WHERE status = '' OR true ORDER BY 1 DESC --").data.isPrefixOf
        text.data then
      .ok (db.insertionSort (fun a b => leChars b.id.data a.id.data = true))
    else .error "pq: syntax error"

/-- The cache agrees with the table: a path is a key of the map exactly when
some row holds it. -/
def Consistent (s : Server) : Prop :=
  ∀ p, lookup s.processedPaths p = true ↔ ∃ r ∈ s.db, r.path = p

/-! ## Properties of the cache and of the state-changing handlers -/

theorem mem_setTrue (m : List String) (p q : String) :
    p ∈ setTrue m q ↔ p ∈ m ∨ p = q := by
  unfold setTrue
  split
  · constructor
    · exact Or.inl
    · rintro (h | h)
      · exact h
      · subst h; assumption
  · simp

theorem mem_foldl_setTrue (paths m : List String) (p : String) :
    p ∈ paths.foldl setTrue m ↔ p ∈ m ∨ p ∈ paths := by
  induction paths generalizing m with
  | nil => simp
  | cons q qs ih =>
    simp only [List.foldl_cons, ih, mem_setTrue, List.mem_cons]
    tauto

/-- What `addToQueue` does to the state when it answers 200. -/
theorem addToQueue_ok (s : Server) (fault : Option String) (bound : Except String Video)
    (h : (addToQueue s fault bound).1.code = StatusOK) :
    ∃ video, bound = .ok video ∧ fault = none ∧ (∀ r ∈ s.db, r.id ≠ video.ID) ∧
      (addToQueue s fault bound).1 = ⟨StatusOK, .video video⟩ ∧
      (addToQueue s fault bound).2 =
        { db := s.db ++ [insertedRow video],
          processedPaths := setTrue s.processedPaths video.Path } := by
  unfold addToQueue at h ⊢
  cases bound with
  | error e => simp [StatusOK, StatusBadRequest] at h
  | ok video =>
    cases fault with
    | some msg => simp [execInsert, StatusOK, StatusInternalServerError] at h
    | none =>
      by_cases hd : s.db.any (fun x => x.id == (insertedRow video).id) = true
      · simp [execInsert, hd, StatusOK, StatusInternalServerError] at h
      · refine ⟨video, rfl, rfl, ?_, ?_⟩
        · intro r hr heq
          apply hd
          simp only [List.any_eq_true, beq_iff_eq]
          exact ⟨r, hr, by simpa [insertedRow] using heq⟩
        · simp [execInsert, hd]

/-- What `addToQueue` does when it does not answer 200: nothing. -/
theorem addToQueue_not_ok (s : Server) (fault : Option String) (bound : Except String Video)
    (h : (addToQueue s fault bound).1.code ≠ StatusOK) :
    (addToQueue s fault bound).2 = s := by
  unfold addToQueue at h ⊢
  cases bound with
  | error e => rfl
  | ok video =>
    cases hx : execInsert fault s.db (insertedRow video) with
    | error e => simp [hx]
    | ok db => simp [hx] at h

/-- The handler `updateVideoStatus` leaves the cache alone and changes no
path. -/
theorem updateVideoStatus_state (s : Server) (fault : Option String) (id : String)
    (bound : Except String String) :
    (updateVideoStatus s fault id bound).2.processedPaths = s.processedPaths ∧
    (updateVideoStatus s fault id bound).2.db.map (fun r => r.path) =
      s.db.map (fun r => r.path) := by
  unfold updateVideoStatus
  cases bound with
  | error e => exact ⟨rfl, rfl⟩
  | ok status =>
    cases fault with
    | some msg => exact ⟨rfl, rfl⟩
    | none =>
      refine ⟨rfl, ?_⟩
      simp only [execUpdateStatus, List.map_map]
      apply List.map_congr_left
      intro r _
      simp only [Function.comp]
      split <;> rfl

theorem consistent_iff (s : Server) :
    Consistent s ↔ ∀ p, p ∈ s.processedPaths ↔ p ∈ s.db.map (fun r => r.path) := by
  simp [Consistent, lookup]

theorem consistent_refresh (s : Server) :
    Consistent (refreshProcessedPathsCache none s) := by
  rw [consistent_iff]
  intro p
  simp [refreshProcessedPathsCache, queryPaths, mem_foldl_setTrue]

theorem consistent_step (s : Server) (req : Request) (h : Consistent s) :
    Consistent (step s req) := by
  rw [consistent_iff] at h ⊢
  cases req with
  | enqueue fault bound =>
    simp only [step]
    by_cases hc : (addToQueue s fault bound).1.code = StatusOK
    · obtain ⟨video, -, -, -, -, hs⟩ := addToQueue_ok s fault bound hc
      rw [hs]
      intro p
      simp only [mem_setTrue, h p, List.map_append, List.mem_append, List.map_cons,
        List.map_nil, List.mem_singleton, insertedRow]
    · rw [addToQueue_not_ok s fault bound hc]
      exact h
  | updateStatus fault id bound =>
    simp only [step]
    obtain ⟨h1, h2⟩ := updateVideoStatus_state s fault id bound
    intro p
    rw [h1, h2]
    exact h p

theorem consistent_run (reqs : List Request) (s : Server) (h : Consistent s) :
    Consistent (run s reqs) := by
  induction reqs generalizing s with
  | nil => exact h
  | cons req rest ih => exact ih (step s req) (consistent_step s req h)

/-- No request removes a key from the cache. -/
theorem cache_grows_step (s : Server) (req : Request) (p : String)
    (h : p ∈ s.processedPaths) : p ∈ (step s req).processedPaths := by
  cases req with
  | enqueue fault bound =>
    simp only [step]
    by_cases hc : (addToQueue s fault bound).1.code = StatusOK
    · obtain ⟨video, -, -, -, -, hs⟩ := addToQueue_ok s fault bound hc
      rw [hs]
      exact (mem_setTrue _ _ _).2 (Or.inl h)
    · rw [addToQueue_not_ok s fault bound hc]
      exact h
  | updateStatus fault id bound =>
    simp only [step]
    rw [(updateVideoStatus_state s fault id bound).1]
    exact h

theorem cache_grows_run (reqs : List Request) (s : Server) (p : String)
    (h : p ∈ s.processedPaths) : p ∈ (run s reqs).processedPaths := by
  induction reqs generalizing s with
  | nil => exact h
  | cons req rest ih => exact ih (step s req) (cache_grows_step s req p h)

/-- Every video `getUnprocessedVideos` returns has a path absent from the
cache. -/
theorem getUnprocessedVideos_not_cached (s : Server) (walk : List WalkEntry)
    (stat : String → Option Int) (code : Nat) (vs : List Video)
    (h : getUnprocessedVideos s walk stat = ⟨code, .videos vs⟩) :
    ∀ v ∈ vs, v.Path ∉ s.processedPaths := by
  unfold getUnprocessedVideos at h
  cases hw : walkVideos walk [] with
  | error e => simp [hw] at h
  | ok videoPaths =>
    simp only [hw, Reply.mk.injEq, Body.videos.injEq] at h
    intro v hv
    rw [← h.2] at hv
    simp only [List.mem_map, List.mem_filter] at hv
    obtain ⟨p, ⟨-, hp⟩, rfl⟩ := hv
    simpa [lookup, unprocessedVideo] using hp

/-! ## Deduplication -/

/-- C1. Dedup invariant: once `addToQueue` has answered 200 for an item, no
later `getUnprocessedVideos`, after any sequence of further enqueue and status
update requests and over any directory walk, lists a video with the path of
that item. -/
theorem dedup_invariant (s : Server) (fault : Option String) (bound : Except String Video)
    (video : Video) (reqs : List Request) (walk : List WalkEntry)
    (stat : String → Option Int) (vs : List Video)
    (henq : (addToQueue s fault bound).1 = ⟨StatusOK, .video video⟩)
    (hdisc : getUnprocessedVideos (run (addToQueue s fault bound).2 reqs) walk stat =
      ⟨StatusOK, .videos vs⟩) :
    ∀ v ∈ vs, v.Path ≠ video.Path := by
  have hc : (addToQueue s fault bound).1.code = StatusOK := by rw [henq]
  obtain ⟨video2, -, -, -, hr, hs⟩ := addToQueue_ok s fault bound hc
  have hv : video2 = video := by
    rw [henq] at hr
    simp only [Reply.mk.injEq, Body.video.injEq, true_and] at hr
    exact hr.symm
  subst hv
  have hmem : video2.Path ∈ (addToQueue s fault bound).2.processedPaths := by
    rw [hs]
    exact (mem_setTrue _ _ _).2 (Or.inr rfl)
  have hrun := cache_grows_run reqs _ _ hmem
  intro v hv heq
  exact getUnprocessedVideos_not_cached _ walk stat _ vs hdisc v hv (heq ▸ hrun)

/-- C1, at an instance: `videos/a.mp4` is enqueued, its status is updated, and
a walk over `a.mp4` and `b.mp4` then lists `b.mp4` only. -/
theorem dedup_invariant_witness :
    (addToQueue ⟨[], []⟩ none (.ok ⟨"a.mp4", "videos/a.mp4", "", "", "unprocessed", 7⟩)).1 =
        ⟨StatusOK, .video ⟨"a.mp4", "videos/a.mp4", "", "", "unprocessed", 7⟩⟩ ∧
    getUnprocessedVideos
        (run (addToQueue ⟨[], []⟩ none
          (.ok ⟨"a.mp4", "videos/a.mp4", "", "", "unprocessed", 7⟩)).2
          [.updateStatus none "a.mp4" (.ok "processing")])
        [⟨"videos", true, none⟩, ⟨"videos/a.mp4", false, none⟩,
          ⟨"videos/b.mp4", false, none⟩, ⟨"videos/notes.txt", false, none⟩]
        (fun _ => some 7) =
      ⟨StatusOK, .videos [⟨"b.mp4", "videos/b.mp4", "", "", "unprocessed", 7⟩]⟩ ∧
    ∀ v ∈ [(⟨"b.mp4", "videos/b.mp4", "", "", "unprocessed", 7⟩ : Video)],
      v.Path ≠ "videos/a.mp4" :=
  ⟨by decide, by decide,
    dedup_invariant ⟨[], []⟩ none (.ok ⟨"a.mp4", "videos/a.mp4", "", "", "unprocessed", 7⟩)
      ⟨"a.mp4", "videos/a.mp4", "", "", "unprocessed", 7⟩
      [.updateStatus none "a.mp4" (.ok "processing")]
      [⟨"videos", true, none⟩, ⟨"videos/a.mp4", false, none⟩,
        ⟨"videos/b.mp4", false, none⟩, ⟨"videos/notes.txt", false, none⟩]
      (fun _ => some 7) _ (by decide) (by decide)⟩

/-- C9. Cache and store agree: after `refreshProcessedPathsCache` has read the
table, and after any sequence of enqueue and status update requests that
follows, successful or not, a path is in the cache exactly when some row of
the table holds it. -/
theorem cache_store_consistency (s : Server) (reqs : List Request) (p : String) :
    lookup (run (refreshProcessedPathsCache none s) reqs).processedPaths p = true ↔
      ∃ r ∈ (run (refreshProcessedPathsCache none s) reqs).db, r.path = p :=
  consistent_run reqs _ (consistent_refresh s) p

/-! ## Enqueue -/

/-- C7. Enqueue forces pending: when `addToQueue` answers 200 for an item, the
table has gained exactly one row, with the id, path, resolution, bitrate and
size of the item and the status `pending`, whatever status the item carried. -/
theorem enqueue_forces_pending (s : Server) (fault : Option String) (video : Video)
    (h : (addToQueue s fault (.ok video)).1.code = StatusOK) :
    (addToQueue s fault (.ok video)).2.db =
      s.db ++ [{ id := video.ID, path := video.Path, resolution := video.Resolution,
                 bitrate := video.Bitrate, status := "pending",
                 original_size := video.OriginalSize }] := by
  obtain ⟨video2, hb, -, -, -, hs⟩ := addToQueue_ok s fault (.ok video) h
  cases hb
  rw [hs]
  rfl

/-- C7, at an instance: an item sent with status `completed` is stored as
`pending`. -/
theorem enqueue_forces_pending_witness :
    (addToQueue ⟨[], []⟩ none (.ok ⟨"a.mp4", "videos/a.mp4", "1080p", "5M", "completed", 7⟩)).1.code
        = StatusOK ∧
    (addToQueue ⟨[], []⟩ none (.ok ⟨"a.mp4", "videos/a.mp4", "1080p", "5M", "completed", 7⟩)).2.db
        = [] ++ [⟨"a.mp4", "videos/a.mp4", "1080p", "5M", "pending", 7⟩] :=
  ⟨by decide,
    enqueue_forces_pending ⟨[], []⟩ none ⟨"a.mp4", "videos/a.mp4", "1080p", "5M", "completed", 7⟩
      (by decide)⟩

/-- C8, at the failing input: for an item sent with status `completed`,
`addToQueue` answers 200 with the item as it was sent, status `completed`,
while the row it inserted has status `pending`. -/
theorem enqueue_reply_status_differs :
    (addToQueue ⟨[], []⟩ none (.ok ⟨"a.mp4", "videos/a.mp4", "1080p", "5M", "completed", 7⟩)) =
      (⟨StatusOK, .video ⟨"a.mp4", "videos/a.mp4", "1080p", "5M", "completed", 7⟩⟩,
        ⟨[⟨"a.mp4", "videos/a.mp4", "1080p", "5M", "pending", 7⟩],
          ["videos/a.mp4"]⟩) := by
  decide

/-- C2, as stated, fails: the table holds a row with path `videos/a.mp4`; an
item with the same path and another id is accepted, and the table then holds
two rows with that path. -/
theorem enqueue_accepts_duplicate_path :
    (∃ r ∈ [(⟨"a", "videos/a.mp4", "", "", "pending", 7⟩ : Row)],
        r.path = "videos/a.mp4") ∧
    addToQueue ⟨[⟨"a", "videos/a.mp4", "", "", "pending", 7⟩], ["videos/a.mp4"]⟩ none
        (.ok ⟨"b", "videos/a.mp4", "", "", "unprocessed", 7⟩) =
      (⟨StatusOK, .video ⟨"b", "videos/a.mp4", "", "", "unprocessed", 7⟩⟩,
        ⟨[⟨"a", "videos/a.mp4", "", "", "pending", 7⟩,
          ⟨"b", "videos/a.mp4", "", "", "pending", 7⟩], ["videos/a.mp4"]⟩) := by
  decide

/-- C2, amended. Enqueue rejects a duplicate id: when the table already holds
a row with the id of the item, whatever its path, `addToQueue` answers 500 and
leaves table and cache as they were; and a table whose ids are pairwise
distinct stays so through any `addToQueue`. -/
theorem enqueue_rejects_duplicate_id (s : Server) (fault : Option String) (video : Video) :
    ((∃ r ∈ s.db, r.id = video.ID) →
      (addToQueue s fault (.ok video)).1.code = StatusInternalServerError ∧
      (addToQueue s fault (.ok video)).2 = s) ∧
    ((s.db.map (fun r => r.id)).Nodup →
      ((addToQueue s fault (.ok video)).2.db.map (fun r => r.id)).Nodup) := by
  constructor
  · rintro ⟨r, hr, hid⟩
    have hany : s.db.any (fun x => x.id == (insertedRow video).id) = true := by
      simp only [List.any_eq_true, beq_iff_eq]
      exact ⟨r, hr, by simpa [insertedRow] using hid⟩
    cases fault with
    | some msg => exact ⟨rfl, rfl⟩
    | none => simp [addToQueue, execInsert, hany]
  · intro hnd
    by_cases hc : (addToQueue s fault (.ok video)).1.code = StatusOK
    · obtain ⟨video2, hb, -, hfresh, -, hs⟩ := addToQueue_ok s fault (.ok video) hc
      cases hb
      rw [hs]
      simp only [List.map_append, List.map_cons, List.map_nil]
      apply List.Nodup.append hnd (List.nodup_singleton _)
      intro x hx hx2
      simp only [List.mem_singleton] at hx2
      subst hx2
      simp only [List.mem_map] at hx
      obtain ⟨r, hr, hid⟩ := hx
      exact hfresh r hr (by simpa [insertedRow] using hid)
    · rw [addToQueue_not_ok s fault (.ok video) hc]
      exact hnd

/-- C2, amended, at an instance: an item with the id of a stored row and a
new path is refused. -/
theorem enqueue_rejects_duplicate_id_witness :
    (∃ r ∈ [(⟨"a", "videos/a.mp4", "", "", "pending", 7⟩ : Row)], r.id = "a") ∧
    (addToQueue ⟨[⟨"a", "videos/a.mp4", "", "", "pending", 7⟩], ["videos/a.mp4"]⟩ none
        (.ok ⟨"a", "videos/other.mp4", "", "", "unprocessed", 7⟩)).1.code =
      StatusInternalServerError ∧
    (addToQueue ⟨[⟨"a", "videos/a.mp4", "", "", "pending", 7⟩], ["videos/a.mp4"]⟩ none
        (.ok ⟨"a", "videos/other.mp4", "", "", "unprocessed", 7⟩)).2 =
      ⟨[⟨"a", "videos/a.mp4", "", "", "pending", 7⟩], ["videos/a.mp4"]⟩ :=
  ⟨by decide,
    (enqueue_rejects_duplicate_id
      ⟨[⟨"a", "videos/a.mp4", "", "", "pending", 7⟩], ["videos/a.mp4"]⟩ none
      ⟨"a", "videos/other.mp4", "", "", "unprocessed", 7⟩).1 (by decide)⟩

/-! ## Status update -/

/-- C3, as stated, fails: on a table without the id, `updateVideoStatus`
answers 200 with the acknowledgement `updated`, not 404. -/
theorem updateVideoStatus_missing_id_acknowledged :
    (∀ r ∈ [(⟨"a", "videos/a.mp4", "", "", "pending", 7⟩ : Row)], r.id ≠ "zzz") ∧
    (updateVideoStatus ⟨[⟨"a", "videos/a.mp4", "", "", "pending", 7⟩], ["videos/a.mp4"]⟩
        none "zzz" (.ok "completed")).1 = ⟨StatusOK, .status "updated"⟩ ∧
    (updateVideoStatus ⟨[⟨"a", "videos/a.mp4", "", "", "pending", 7⟩], ["videos/a.mp4"]⟩
        none "zzz" (.ok "completed")).1.code ≠ StatusNotFound := by
  decide

/-- C3, amended. For an id that matches no row, `updateVideoStatus` answers
200 with the acknowledgement `updated` when its statement runs, and 500 with
the driver error when it does not; in both cases the state is unchanged, and
the answer is never 404. -/
theorem updateVideoStatus_missing_id (s : Server) (fault : Option String) (id status : String)
    (h : ∀ r ∈ s.db, r.id ≠ id) :
    updateVideoStatus s fault id (.ok status) =
      (match fault with
        | none => ⟨StatusOK, .status "updated"⟩
        | some msg => ⟨StatusInternalServerError, .error msg⟩, s) ∧
    (updateVideoStatus s fault id (.ok status)).1.code ≠ StatusNotFound := by
  cases fault with
  | some msg =>
    exact ⟨rfl, by simp [updateVideoStatus, execUpdateStatus, StatusInternalServerError,
      StatusNotFound]⟩
  | none =>
    have hmap : s.db.map (fun x => if x.id == id then { x with status := status } else x)
        = s.db := by
      conv_rhs => rw [← List.map_id s.db]
      apply List.map_congr_left
      intro r hr
      simp [h r hr]
    refine ⟨?_, by simp [updateVideoStatus, execUpdateStatus, StatusOK, StatusNotFound]⟩
    simp only [updateVideoStatus, execUpdateStatus, hmap]

/-- C3, amended, at an instance. -/
theorem updateVideoStatus_missing_id_witness :
    (∀ r ∈ [(⟨"a", "videos/a.mp4", "", "", "pending", 7⟩ : Row)], r.id ≠ "zzz") ∧
    updateVideoStatus ⟨[⟨"a", "videos/a.mp4", "", "", "pending", 7⟩], []⟩
        none "zzz" (.ok "completed") =
      (⟨StatusOK, .status "updated"⟩,
        ⟨[⟨"a", "videos/a.mp4", "", "", "pending", 7⟩], []⟩) :=
  ⟨by decide,
    (updateVideoStatus_missing_id
      ⟨[⟨"a", "videos/a.mp4", "", "", "pending", 7⟩], []⟩ none "zzz" "completed"
      (by decide)).1⟩

/-! ## The queue view: validation, grouping -/

theorem validate_eq (params : PaginationParams) :
    validate params =
      { Page := if params.Page < 1 then 1 else params.Page,
        PageSize := if params.PageSize < 1 ∨ params.PageSize > 100 then 10
          else params.PageSize,
        Status := params.Status } := by
  unfold validate
  by_cases h1 : params.Page < 1 <;> by_cases h2 : params.PageSize < 1 ∨ params.PageSize > 100 <;>
    simp [h1, h2]

theorem foldl_groupStep (videos : List Video) (queue : VideoQueue) :
    videos.foldl groupStep queue =
      { Pending := queue.Pending ++ videos.filter (fun v => v.Status = "pending"),
        Processing := queue.Processing ++ videos.filter (fun v => v.Status = "processing"),
        Completed := queue.Completed ++ videos.filter (fun v => v.Status = "completed"),
        Total := queue.Total } := by
  induction videos generalizing queue with
  | nil => simp
  | cons v vs ih =>
    rw [List.foldl_cons, ih]
    unfold groupStep
    by_cases h1 : v.Status = "pending"
    · simp [h1]
    · by_cases h2 : v.Status = "processing"
      · simp [h2]
      · by_cases h3 : v.Status = "completed"
        · simp [h3]
        · simp [h1, h2, h3]

theorem groupVideos_eq (videos : List Video) (total : Int) :
    groupVideos videos total =
      { Pending := videos.filter (fun v => v.Status = "pending"),
        Processing := videos.filter (fun v => v.Status = "processing"),
        Completed := videos.filter (fun v => v.Status = "completed"),
        Total := total } := by
  simp [groupVideos, foldl_groupStep]

/-- What `getQueue` has done when it answers 200: both statements ran, with
the validated parameters, and the reply is built from their results. -/
theorem getQueue_ok (pg : Postgres) (db : List Row) (countFault queryFault : Option String)
    (bound : Except String PaginationParams)
    (h : (getQueue pg db countFault queryFault bound).code = StatusOK) :
    ∃ params total rows, bound = .ok params ∧
      queryRowCount pg countFault db (validate params).Status = .ok total ∧
      queryRows pg queryFault db (validate params).Status (validate params).PageSize
        (pageOffset (validate params)) = .ok rows ∧
      getQueue pg db countFault queryFault bound =
        ⟨StatusOK, .queue (groupVideos (scanVideoRows rows) total)
          { page := (validate params).Page, pageSize := (validate params).PageSize,
            total := total, pages := pageCount total (validate params).PageSize }⟩ := by
  unfold getQueue at h ⊢
  cases bound with
  | error e => simp [StatusOK, StatusBadRequest] at h
  | ok params =>
    simp only at h ⊢
    cases hc : queryRowCount pg countFault db (validate params).Status with
    | error e => simp [hc, StatusOK, StatusInternalServerError] at h
    | ok total =>
      cases hq : queryRows pg queryFault db (validate params).Status
          (validate params).PageSize (pageOffset (validate params)) with
      | error e => simp [hc, hq, StatusOK, StatusInternalServerError] at h
      | ok rows => exact ⟨params, total, rows, rfl, hc, hq, by simp [hc, hq]⟩

/-- C4, as stated, fails: on a table of two pending rows, a request with
`pageSize=0` is served with page size 10, not 1 (both rows on one page, one
page in all), and a request with `pageSize=500` with page size 10, not 100. -/
theorem getQueue_pageSize_reset_not_clamped :
    getQueue plainPostgres
        [⟨"a", "videos/a.mp4", "", "", "pending", 7⟩,
          ⟨"b", "videos/b.mp4", "", "", "pending", 7⟩] none none (.ok ⟨1, 0, ""⟩) =
      ⟨StatusOK, .queue
        ⟨[⟨"a", "videos/a.mp4", "", "", "pending", 7⟩, ⟨"b", "videos/b.mp4", "", "", "pending", 7⟩],
          [], [], 2⟩ ⟨1, 10, 2, 1⟩⟩ ∧
    min (max (0 : Int) 1) 100 = 1 ∧
    getQueue plainPostgres
        [⟨"a", "videos/a.mp4", "", "", "pending", 7⟩,
          ⟨"b", "videos/b.mp4", "", "", "pending", 7⟩] none none (.ok ⟨1, 500, ""⟩) =
      ⟨StatusOK, .queue
        ⟨[⟨"a", "videos/a.mp4", "", "", "pending", 7⟩, ⟨"b", "videos/b.mp4", "", "", "pending", 7⟩],
          [], [], 2⟩ ⟨1, 10, 2, 1⟩⟩ ∧
    min (max (500 : Int) 1) 100 = 100 := by
  decide

/-- C4, amended. The page size `getQueue` works with is the requested one when
that lies in [1, 100] and 10 otherwise. It lies in [1, 100], and when the
handler answers 200 it is the `LIMIT` of the statement that fetched the rows,
the divisor of the page count and the `pageSize` of the reply. -/
theorem getQueue_effective_pageSize (pg : Postgres) (db : List Row)
    (countFault queryFault : Option String) (params : PaginationParams)
    (h : (getQueue pg db countFault queryFault (.ok params)).code = StatusOK) :
    ∃ eff page total rows queue,
      eff = (if params.PageSize < 1 ∨ params.PageSize > 100 then 10 else params.PageSize) ∧
      page = (if params.Page < 1 then 1 else params.Page) ∧
      1 ≤ eff ∧ eff ≤ 100 ∧
      queryRows pg queryFault db params.Status eff (wrap64 ((page - 1) * eff)) = .ok rows ∧
      getQueue pg db countFault queryFault (.ok params) =
        ⟨StatusOK, .queue queue
          { page := page, pageSize := eff, total := total,
            pages := (wrap64 (total + eff - 1)).tdiv eff }⟩ := by
  obtain ⟨params2, total, rows, hb, -, hq, hr⟩ := getQueue_ok pg db countFault queryFault _ h
  cases hb
  rw [validate_eq] at hq hr
  refine ⟨_, _, total, rows, _, rfl, rfl, ?_, ?_, hq, hr⟩
  · split <;> omega
  · split <;> omega

/-- C4, amended, at an instance: `pageSize=0` is served with page size 10. -/
theorem getQueue_effective_pageSize_witness :
    (getQueue plainPostgres [⟨"a", "videos/a.mp4", "", "", "pending", 7⟩] none none
        (.ok ⟨1, 0, ""⟩)).code = StatusOK ∧
    ∃ eff page total rows queue,
      eff = (if (0 : Int) < 1 ∨ (0 : Int) > 100 then 10 else 0) ∧
      page = (if (1 : Int) < 1 then 1 else 1) ∧
      1 ≤ eff ∧ eff ≤ 100 ∧
      queryRows plainPostgres none [⟨"a", "videos/a.mp4", "", "", "pending", 7⟩] ""
        eff (wrap64 ((page - 1) * eff)) = .ok rows ∧
      getQueue plainPostgres [⟨"a", "videos/a.mp4", "", "", "pending", 7⟩] none none
          (.ok ⟨1, 0, ""⟩) =
        ⟨StatusOK, .queue queue
          { page := page, pageSize := eff, total := total,
            pages := (wrap64 (total + eff - 1)).tdiv eff }⟩ :=
  ⟨by decide,
    getQueue_effective_pageSize plainPostgres
      [⟨"a", "videos/a.mp4", "", "", "pending", 7⟩] none none ⟨1, 0, ""⟩ (by decide)⟩

/-- C10. Status grouping: when `getQueue` answers 200, its three buckets are
the fetched rows whose status is `pending`, `processing` and `completed`, each
in the order of the rows and scanned into videos; a row with any other status
is in no bucket; and the total of the reply is the result of the count
statement, which for a filter that is a plain literal is the number of rows of
the table passing the filter, whatever the buckets hold. -/
theorem getQueue_status_grouping (pg : Postgres) (db : List Row)
    (countFault queryFault : Option String) (params : PaginationParams)
    (queue : VideoQueue) (pagination : Pagination)
    (h : getQueue pg db countFault queryFault (.ok params) =
      ⟨StatusOK, .queue queue pagination⟩) :
    ∃ rows,
      queryRows pg queryFault db (validate params).Status (validate params).PageSize
        (pageOffset (validate params)) = .ok rows ∧
      queue.Pending = (rows.filter (fun r => r.status = "pending")).map scanRow ∧
      queue.Processing = (rows.filter (fun r => r.status = "processing")).map scanRow ∧
      queue.Completed = (rows.filter (fun r => r.status = "completed")).map scanRow ∧
      (∀ r ∈ rows, r.status ≠ "pending" → r.status ≠ "processing" →
        r.status ≠ "completed" →
        scanRow r ∉ queue.Pending ∧ scanRow r ∉ queue.Processing ∧
          scanRow r ∉ queue.Completed) ∧
      queryRowCount pg countFault db params.Status = .ok queue.Total ∧
      pagination.total = queue.Total ∧
      (plainLiteral params.Status = true →
        queue.Total = ((db.filter (fun r => params.Status = "" ∨ r.status = params.Status)).length
          : Int)) := by
  have hc : (getQueue pg db countFault queryFault (.ok params)).code = StatusOK := by rw [h]
  obtain ⟨params2, total, rows, hb, hcount, hq, hr⟩ :=
    getQueue_ok pg db countFault queryFault _ hc
  cases hb
  rw [h, groupVideos_eq] at hr
  simp only [Reply.mk.injEq, Body.queue.injEq, true_and] at hr
  obtain ⟨hqueue, hpag⟩ := hr
  subst hqueue
  subst hpag
  have hst : (validate params).Status = params.Status := by rw [validate_eq]
  rw [hst] at hcount
  have hfm : ∀ (st : String), (scanVideoRows rows).filter (fun v => v.Status = st) =
      (rows.filter (fun r => r.status = st)).map scanRow := by
    intro st
    unfold scanVideoRows
    rw [List.filter_map]
    rfl
  refine ⟨rows, hq, hfm _, hfm _, hfm _, ?_, hcount, rfl, ?_⟩
  · intro r _ h1 h2 h3
    simp [List.mem_filter, scanRow, h1, h2, h3]
  · intro hplain
    cases countFault with
    | some msg => simp [queryRowCount] at hcount
    | none =>
      simp only [queryRowCount, hplain, if_true, Except.ok.injEq] at hcount
      have hf : db.filter (matchesFilter params.Status) =
          db.filter (fun r => params.Status = "" ∨ r.status = params.Status) := by
        apply List.filter_congr
        intro r _
        rw [Bool.eq_iff_iff]
        simp [matchesFilter]
      simp only [← hcount, hf]

/-- C10, at an instance: four rows, one with a status outside the three; the
total is 4 and the three buckets hold three videos. -/
theorem getQueue_status_grouping_witness :
    getQueue plainPostgres
        [⟨"a", "videos/a.mp4", "", "", "pending", 7⟩,
          ⟨"b", "videos/b.mp4", "", "", "processing", 7⟩,
          ⟨"c", "videos/c.mp4", "", "", "completed", 7⟩,
          ⟨"d", "videos/d.mp4", "", "", "failed", 7⟩] none none (.ok ⟨1, 10, ""⟩) =
      ⟨StatusOK, .queue
        ⟨[⟨"a", "videos/a.mp4", "", "", "pending", 7⟩],
          [⟨"b", "videos/b.mp4", "", "", "processing", 7⟩],
          [⟨"c", "videos/c.mp4", "", "", "completed", 7⟩], 4⟩ ⟨1, 10, 4, 1⟩⟩ ∧
    ∃ rows,
      queryRows plainPostgres none
        [⟨"a", "videos/a.mp4", "", "", "pending", 7⟩,
          ⟨"b", "videos/b.mp4", "", "", "processing", 7⟩,
          ⟨"c", "videos/c.mp4", "", "", "completed", 7⟩,
          ⟨"d", "videos/d.mp4", "", "", "failed", 7⟩]
        (validate ⟨1, 10, ""⟩).Status (validate ⟨1, 10, ""⟩).PageSize
        (pageOffset (validate ⟨1, 10, ""⟩)) = .ok rows ∧
      [(⟨"a", "videos/a.mp4", "", "", "pending", 7⟩ : Video)] =
        (rows.filter (fun r => r.status = "pending")).map scanRow :=
  ⟨by decide,
    (getQueue_status_grouping plainPostgres
      [⟨"a", "videos/a.mp4", "", "", "pending", 7⟩,
        ⟨"b", "videos/b.mp4", "", "", "processing", 7⟩,
        ⟨"c", "videos/c.mp4", "", "", "completed", 7⟩,
        ⟨"d", "videos/d.mp4", "", "", "failed", 7⟩] none none ⟨1, 10, ""⟩
      ⟨[⟨"a", "videos/a.mp4", "", "", "pending", 7⟩],
        [⟨"b", "videos/b.mp4", "", "", "processing", 7⟩],
        [⟨"c", "videos/c.mp4", "", "", "completed", 7⟩], 4⟩ ⟨1, 10, 4, 1⟩ (by decide)).imp
      (fun _ hv => ⟨hv.1, hv.2.1⟩)⟩

/-! ## The queue view: order of the rows, for a filter that is a plain literal -/

theorem rowLe_iff (coll : Collation) (a b : Row) :
    rowLe coll a b = true ↔
      statusRank a.status < statusRank b.status ∨
        (statusRank a.status = statusRank b.status ∧ coll.le a.path b.path = true) := by
  simp [rowLe]

theorem rowLe_total (coll : Collation) (a b : Row) :
    rowLe coll a b = true ∨ rowLe coll b a = true := by
  rw [rowLe_iff, rowLe_iff]
  rcases Nat.lt_trichotomy (statusRank a.status) (statusRank b.status) with h | h | h
  · exact Or.inl (Or.inl h)
  · rcases coll.total a.path b.path with h2 | h2
    · exact Or.inl (Or.inr ⟨h, h2⟩)
    · exact Or.inr (Or.inr ⟨h.symm, h2⟩)
  · exact Or.inr (Or.inl h)

theorem rowLe_trans (coll : Collation) (a b c : Row) (hab : rowLe coll a b = true)
    (hbc : rowLe coll b c = true) : rowLe coll a c = true := by
  rw [rowLe_iff] at hab hbc ⊢
  rcases hab with h1 | ⟨h1, p1⟩
  · rcases hbc with h2 | ⟨h2, -⟩
    · exact Or.inl (by omega)
    · exact Or.inl (by omega)
  · rcases hbc with h2 | ⟨h2, p2⟩
    · exact Or.inl (by omega)
    · exact Or.inr ⟨by omega, coll.trans _ _ _ p1 p2⟩

/-- The rows of `orderedRows` are in the order of the `ORDER BY` clause. -/
theorem orderedRows_sorted (coll : Collation) (db : List Row) (status : String) :
    (orderedRows coll db status).Pairwise (fun a b => rowLe coll a b = true) := by
  haveI : IsTotal Row (fun a b => rowLe coll a b = true) := ⟨rowLe_total coll⟩
  haveI : IsTrans Row (fun a b => rowLe coll a b = true) := ⟨rowLe_trans coll⟩
  exact List.sorted_insertionSort _ _

/-- The rows of `orderedRows` are those of the table that pass the filter. -/
theorem orderedRows_perm (coll : Collation) (db : List Row) (status : String) :
    (orderedRows coll db status).Perm (db.filter (matchesFilter status)) :=
  List.perm_insertionSort _ _

/-- For a filter that is a plain literal, the rows a page statement returns
are a window of `orderedRows`. -/
theorem queryRows_plain (pg : Postgres) (fault : Option String) (db : List Row)
    (status : String) (pageSize offset : Int) (rows : List Row)
    (hplain : plainLiteral status = true)
    (h : queryRows pg fault db status pageSize offset = .ok rows) :
    fault = none ∧ 0 ≤ pageSize ∧ 0 ≤ offset ∧
      rows = ((orderedRows pg.collate db status).drop offset.toNat).take pageSize.toNat := by
  unfold queryRows at h
  cases fault with
  | some msg => simp at h
  | none =>
    simp only [hplain, if_true] at h
    by_cases h1 : pageSize < 0
    · simp [h1] at h
    · by_cases h2 : offset < 0
      · simp [h1, h2] at h
      · simp only [h1, h2, if_false, Except.ok.injEq] at h
        exact ⟨rfl, by omega, by omega, h.symm⟩

/-- For a filter that is a plain literal: in the rows `getQueue` fetches for a
reply, and in the videos scanned from them, the rank of the status never
decreases (`processing`, then `pending`, then `completed`, then the rest), and
among rows of equal rank the path never decreases in the collation of the
database. -/
theorem getQueue_rows_ordered (pg : Postgres) (db : List Row)
    (countFault queryFault : Option String) (params : PaginationParams)
    (hplain : plainLiteral params.Status = true)
    (h : (getQueue pg db countFault queryFault (.ok params)).code = StatusOK) :
    ∃ rows total pagination,
      queryRows pg queryFault db (validate params).Status (validate params).PageSize
        (pageOffset (validate params)) = .ok rows ∧
      getQueue pg db countFault queryFault (.ok params) =
        ⟨StatusOK, .queue (groupVideos (scanVideoRows rows) total) pagination⟩ ∧
      rows.Pairwise (fun a b =>
        statusRank a.status ≤ statusRank b.status ∧
          (statusRank a.status = statusRank b.status → pg.collate.le a.path b.path = true)) ∧
      (scanVideoRows rows).Pairwise (fun a b =>
        statusRank a.Status ≤ statusRank b.Status ∧
          (statusRank a.Status = statusRank b.Status → pg.collate.le a.Path b.Path = true)) := by
  obtain ⟨params2, total, rows, hb, -, hq, hr⟩ := getQueue_ok pg db countFault queryFault _ h
  cases hb
  have hst : (validate params).Status = params.Status := by rw [validate_eq]
  have hrows := (queryRows_plain pg queryFault db _ _ _ rows (hst ▸ hplain) hq).2.2.2
  have hsorted : rows.Pairwise (fun a b =>
      statusRank a.status ≤ statusRank b.status ∧
        (statusRank a.status = statusRank b.status → pg.collate.le a.path b.path = true)) := by
    rw [hrows]
    refine List.Pairwise.sublist ((List.take_sublist _ _).trans (List.drop_sublist _ _)) ?_
    refine (orderedRows_sorted pg.collate db _).imp ?_
    intro a b hab
    rw [rowLe_iff] at hab
    rcases hab with hlt | ⟨heq, hle⟩
    · exact ⟨by omega, fun he => by omega⟩
    · exact ⟨by omega, fun _ => hle⟩
  refine ⟨rows, total, _, hq, hr, hsorted, ?_⟩
  unfold scanVideoRows
  rw [List.pairwise_map]
  exact hsorted

/-- The previous statement at an instance: three rows in table order
pending, completed, processing are fetched as processing, pending,
completed. -/
theorem getQueue_rows_ordered_witness :
    plainLiteral "" = true ∧
    getQueue plainPostgres
        [⟨"a", "videos/a.mp4", "", "", "pending", 7⟩,
          ⟨"b", "videos/b.mp4", "", "", "completed", 7⟩,
          ⟨"c", "videos/c.mp4", "", "", "processing", 7⟩] none none (.ok ⟨1, 10, ""⟩) =
      ⟨StatusOK, .queue
        ⟨[⟨"a", "videos/a.mp4", "", "", "pending", 7⟩],
          [⟨"c", "videos/c.mp4", "", "", "processing", 7⟩],
          [⟨"b", "videos/b.mp4", "", "", "completed", 7⟩], 3⟩ ⟨1, 10, 3, 1⟩⟩ ∧
    queryRows plainPostgres none
        [⟨"a", "videos/a.mp4", "", "", "pending", 7⟩,
          ⟨"b", "videos/b.mp4", "", "", "completed", 7⟩,
          ⟨"c", "videos/c.mp4", "", "", "processing", 7⟩] "" 10 0 =
      .ok [⟨"c", "videos/c.mp4", "", "", "processing", 7⟩,
        ⟨"a", "videos/a.mp4", "", "", "pending", 7⟩,
        ⟨"b", "videos/b.mp4", "", "", "completed", 7⟩] ∧
    ∃ rows total pagination,
      queryRows plainPostgres none
        [⟨"a", "videos/a.mp4", "", "", "pending", 7⟩,
          ⟨"b", "videos/b.mp4", "", "", "completed", 7⟩,
          ⟨"c", "videos/c.mp4", "", "", "processing", 7⟩]
        (validate ⟨1, 10, ""⟩).Status (validate ⟨1, 10, ""⟩).PageSize
        (pageOffset (validate ⟨1, 10, ""⟩)) = .ok rows ∧
      getQueue plainPostgres
        [⟨"a", "videos/a.mp4", "", "", "pending", 7⟩,
          ⟨"b", "videos/b.mp4", "", "", "completed", 7⟩,
          ⟨"c", "videos/c.mp4", "", "", "processing", 7⟩] none none (.ok ⟨1, 10, ""⟩) =
        ⟨StatusOK, .queue (groupVideos (scanVideoRows rows) total) pagination⟩ :=
  ⟨by decide, by decide, by rfl,
    (getQueue_rows_ordered plainPostgres
      [⟨"a", "videos/a.mp4", "", "", "pending", 7⟩,
        ⟨"b", "videos/b.mp4", "", "", "completed", 7⟩,
        ⟨"c", "videos/c.mp4", "", "", "processing", 7⟩] none none ⟨1, 10, ""⟩
      (by decide) (by decide)).imp
      (fun _ h1 => h1.imp (fun _ h2 => h2.imp (fun _ h3 => ⟨h3.1, h3.2.1⟩)))⟩

/-! ## The queue view: page count and page sizes, for a filter that is a plain literal -/

theorem wrap64_of_range (x : Int) (h0 : -(2 ^ 63) ≤ x) (h1 : x < 2 ^ 63) : wrap64 x = x := by
  unfold wrap64
  rw [Int.emod_eq_of_lt (by omega) (by omega)]
  omega

/-- The lengths of the first `n` windows of width `s` of a list add up to the
length of the list, capped at `n * s`. -/
theorem sum_window_lengths (l : List Row) (s n : Nat) :
    ∑ i ∈ Finset.range n, ((l.drop (i * s)).take s).length = min (n * s) l.length := by
  induction n with
  | zero => simp
  | succ n ih =>
    rw [Finset.sum_range_succ, ih, List.length_take, List.length_drop, Nat.succ_mul]
    omega

/-- For a filter that is a plain literal, a page size `s` in [1, 100] and a
table small enough for Go's `int`: every page request from 1 to the page count
is answered 200 with the total equal to the number of rows passing the filter
and the page count equal to the ceiling of total over `s`; the rows fetched
for page `i` are the window at offset `(i - 1) * s` of width `s` of the
filtered, ordered rows; and the lengths of these windows add up to the
total. -/
theorem getQueue_pages_plain (pg : Postgres) (db : List Row) (status : String) (s : Nat)
    (hplain : plainLiteral status = true) (hs1 : 1 ≤ s) (hs2 : s ≤ 100)
    (hsize : db.length + 100 < 2 ^ 63) :
    ∃ total pages : Nat,
      total = (db.filter (fun r => status = "" ∨ r.status = status)).length ∧
      (pages : Int) = ⌈(total : ℚ) / (s : ℚ)⌉ ∧
      (∀ i, i < pages →
        queryRows pg none db status s (pageOffset (validate ⟨i + 1, s, status⟩)) =
          .ok (((orderedRows pg.collate db status).drop (i * s)).take s) ∧
        ∃ queue, getQueue pg db none none (.ok ⟨i + 1, s, status⟩) =
          ⟨StatusOK, .queue queue ⟨i + 1, s, total, pages⟩⟩) ∧
      ∑ i ∈ Finset.range pages,
        (((orderedRows pg.collate db status).drop (i * s)).take s).length = total := by
  have hf : db.filter (matchesFilter status) =
      db.filter (fun r => status = "" ∨ r.status = status) := by
    apply List.filter_congr
    intro r _
    rw [Bool.eq_iff_iff]
    simp [matchesFilter]
  have hlen : (orderedRows pg.collate db status).length =
      (db.filter (fun r => status = "" ∨ r.status = status)).length := by
    rw [← hf]
    exact (orderedRows_perm pg.collate db status).length_eq
  have htot : (db.filter (fun r => status = "" ∨ r.status = status)).length ≤ db.length :=
    List.length_filter_le _ _
  generalize htdef : (db.filter (fun r => status = "" ∨ r.status = status)).length = total
    at hlen htot
  have hmul : (total + s - 1) / s * s ≤ total + s - 1 := Nat.div_mul_le_self _ _
  have hlt : total + s - 1 < ((total + s - 1) / s + 1) * s := by
    have := Nat.lt_succ_self ((total + s - 1) / s)
    exact (Nat.div_lt_iff_lt_mul (by omega)).1 this
  have hcover : total ≤ (total + s - 1) / s * s := by
    rw [Nat.succ_mul] at hlt
    omega
  have hpc : pageCount (total : Int) (s : Int) = (((total + s - 1) / s : Nat) : Int) := by
    unfold pageCount
    rw [wrap64_of_range _ (by omega) (by omega), Int.tdiv_eq_ediv (by omega) (by omega)]
    have : (total : Int) + s - 1 = ((total + s - 1 : Nat) : Int) := by omega
    rw [this]
    norm_cast
  refine ⟨total, (total + s - 1) / s, rfl, ?_, ?_, ?_⟩
  · symm
    rw [Int.ceil_eq_iff]
    have hspos : (0 : ℚ) < (s : ℚ) := by exact_mod_cast hs1
    constructor
    · rw [lt_div_iff₀ hspos]
      by_cases hz : (total + s - 1) / s = 0
      · rw [hz]
        have : (0 : ℚ) ≤ (total : ℚ) := by positivity
        simp only [Nat.cast_zero, Int.cast_zero, zero_sub]
        nlinarith
      · obtain ⟨k, hk⟩ := Nat.exists_eq_succ_of_ne_zero hz
        rw [hk] at hmul ⊢
        rw [Nat.succ_mul] at hmul
        have hks : k * s < total := by omega
        have : ((k * s : Nat) : ℚ) < (total : ℚ) := by exact_mod_cast hks
        push_cast at this ⊢
        linarith
    · rw [div_le_iff₀ hspos]
      have : ((total : Nat) : ℚ) ≤ (((total + s - 1) / s * s : Nat) : ℚ) := by
        exact_mod_cast hcover
      push_cast at this ⊢
      exact this
  · intro i hi
    have his : i * s < total := by
      have h1 : (i + 1) * s ≤ (total + s - 1) / s * s := Nat.mul_le_mul_right s hi
      rw [Nat.succ_mul] at h1
      omega
    have hval2 : validate ⟨(i : Int) + 1, s, status⟩ = ⟨(i : Int) + 1, s, status⟩ := by
      have h1 : ¬ ((s : Int) < 1 ∨ (s : Int) > 100) := by omega
      have h2 : ¬ ((i : Int) + 1 < 1) := by omega
      rw [validate_eq]
      dsimp only
      rw [if_neg h1, if_neg h2]
    have hoff : pageOffset ⟨(i : Int) + 1, s, status⟩ = ((i * s : Nat) : Int) := by
      unfold pageOffset
      have h1 : ((i : Int) + 1 - 1) * (s : Int) = ((i * s : Nat) : Int) := by
        push_cast
        ring
      simp only [h1]
      exact wrap64_of_range _ (by omega) (by omega)
    have hq : queryRows pg none db status s (pageOffset (validate ⟨i + 1, s, status⟩)) =
        .ok (((orderedRows pg.collate db status).drop (i * s)).take s) := by
      rw [hval2, hoff]
      unfold queryRows
      have h1 : ¬ ((s : Int) < 0) := by omega
      have h2 : ¬ (((i * s : Nat) : Int) < 0) := by omega
      simp only [hplain, if_true, h1, h2, if_false, Int.toNat_ofNat]
    refine ⟨hq, ?_⟩
    have hcnt : queryRowCount pg none db status = .ok (total : Int) := by
      unfold queryRowCount
      simp only [hplain, if_true, hf, htdef]
    refine ⟨groupVideos (scanVideoRows
      (((orderedRows pg.collate db status).drop (i * s)).take s)) total, ?_⟩
    unfold getQueue
    simp only [hval2] at hq ⊢
    simp only [hcnt, hq, hpc]
  · rw [sum_window_lengths, hlen]
    exact Nat.min_eq_right hcover

/-- The previous statement at an instance: six rows, page size 2, three
pages. -/
theorem getQueue_pages_plain_witness :
    plainLiteral "" = true ∧
    ∃ total pages : Nat,
      total = 6 ∧ (pages : Int) = ⌈(total : ℚ) / ((2 : Nat) : ℚ)⌉ :=
  ⟨by decide,
    (getQueue_pages_plain plainPostgres
      [⟨"a", "videos/a.mp4", "", "", "pending", 7⟩,
        ⟨"b", "videos/b.mp4", "", "", "processing", 7⟩,
        ⟨"c", "videos/c.mp4", "", "", "completed", 7⟩,
        ⟨"d", "videos/d.mp4", "", "", "pending", 7⟩,
        ⟨"e", "videos/e.mp4", "", "", "processing", 7⟩,
        ⟨"f", "videos/f.mp4", "", "", "pending", 7⟩] "" 2
      (by decide) (by decide) (by decide) (by decide)).imp
      (fun _ h => h.imp (fun _ h2 => ⟨by rw [h2.1]; decide, h2.2.1⟩))⟩

/-! ## The queue view: a filter that is not a plain literal -/

set_option maxRecDepth 100000 in
/-- C5, at the failing input: for the parameter `' OR true --`, page size 2
and a table of three rows, none of which has that status, the handler sends a
count statement and page statements whose `ORDER BY`, `LIMIT` and `OFFSET` lie
inside a comment; read as PostgreSQL reads them, the total is 3, the page
count 2, and both page 1 and page 2 carry all three rows. -/
theorem getQueue_filter_comment_pages :
    plainLiteral "' OR true --" = false ∧
    countText "' OR true --" = "SELECT COUNT(*) FROM videos WHERE status = '' OR true --'" ∧
    selectText "' OR true --" (validate ⟨1, 2, "' OR true --"⟩).PageSize
        (pageOffset (validate ⟨1, 2, "' OR true --"⟩)) =
      "SELECT id, path, resolution, bitrate, status, original_size FROM videos WHERE status = '' OR true --' ORDER BY CASE status WHEN 'processing' THEN 1 WHEN 'pending' THEN 2 WHEN 'completed' THEN 3 ELSE 4 END, path LIMIT 2 OFFSET 0" ∧
    selectText "' OR true --" (validate ⟨2, 2, "' OR true --"⟩).PageSize
        (pageOffset (validate ⟨2, 2, "' OR true --"⟩)) =
      "SELECT id, path, resolution, bitrate, status, original_size FROM videos WHERE status = '' OR true --' ORDER BY CASE status WHEN 'processing' THEN 1 WHEN 'pending' THEN 2 WHEN 'completed' THEN 3 ELSE 4 END, path LIMIT 2 OFFSET 2" ∧
    ([(⟨"a", "videos/a.mp4", "", "", "pending", 7⟩ : Row),
        ⟨"b", "videos/b.mp4", "", "", "pending", 7⟩,
        ⟨"c", "videos/c.mp4", "", "", "pending", 7⟩].filter
      (fun r => r.status = "' OR true --")).length = 0 ∧
    getQueue commentReading
        [⟨"a", "videos/a.mp4", "", "", "pending", 7⟩,
          ⟨"b", "videos/b.mp4", "", "", "pending", 7⟩,
          ⟨"c", "videos/c.mp4", "", "", "pending", 7⟩] none none
        (.ok ⟨1, 2, "' OR true --"⟩) =
      ⟨StatusOK, .queue
        ⟨[⟨"a", "videos/a.mp4", "", "", "pending", 7⟩, ⟨"b", "videos/b.mp4", "", "", "pending", 7⟩,
          ⟨"c", "videos/c.mp4", "", "", "pending", 7⟩], [], [], 3⟩ ⟨1, 2, 3, 2⟩⟩ ∧
    getQueue commentReading
        [⟨"a", "videos/a.mp4", "", "", "pending", 7⟩,
          ⟨"b", "videos/b.mp4", "", "", "pending", 7⟩,
          ⟨"c", "videos/c.mp4", "", "", "pending", 7⟩] none none
        (.ok ⟨2, 2, "' OR true --"⟩) =
      ⟨StatusOK, .queue
        ⟨[⟨"a", "videos/a.mp4", "", "", "pending", 7⟩, ⟨"b", "videos/b.mp4", "", "", "pending", 7⟩,
          ⟨"c", "videos/c.mp4", "", "", "pending", 7⟩], [], [], 3⟩ ⟨2, 2, 3, 2⟩⟩ := by
  refine ⟨by decide, by decide, by decide, by decide, by decide, by decide, by decide⟩

set_option maxRecDepth 100000 in
/-- C6, at the failing input: for the parameter `' OR true ORDER BY 1 DESC --`
and a table of two pending rows, the handler sends a page statement whose own
`ORDER BY` lies inside a comment, behind an `ORDER BY 1 DESC` that came with
the parameter; read as PostgreSQL reads it, the rows come back by descending
id, and the reply lists `videos/b.mp4` before `videos/a.mp4`. -/
theorem getQueue_filter_comment_order :
    plainLiteral "' OR true ORDER BY 1 DESC --" = false ∧
    countText "' OR true ORDER BY 1 DESC --" =
      "SELECT COUNT(*) FROM videos WHERE status = '' OR true ORDER BY 1 DESC --'" ∧
    selectText "' OR true ORDER BY 1 DESC --"
        (validate ⟨1, 10, "' OR true ORDER BY 1 DESC --"⟩).PageSize
        (pageOffset (validate ⟨1, 10, "' OR true ORDER BY 1 DESC --"⟩)) =
      "SELECT id, path, resolution, bitrate, status, original_size FROM videos WHERE status = '' OR true ORDER BY 1 DESC --' ORDER BY CASE status WHEN 'processing' THEN 1 WHEN 'pending' THEN 2 WHEN 'completed' THEN 3 ELSE 4 END, path LIMIT 10 OFFSET 0" ∧
    queryRows commentReading none
        [⟨"a", "videos/a.mp4", "", "", "pending", 7⟩,
          ⟨"b", "videos/b.mp4", "", "", "pending", 7⟩]
        "' OR true ORDER BY 1 DESC --" 10 0 =
      .ok [⟨"b", "videos/b.mp4", "", "", "pending", 7⟩,
        ⟨"a", "videos/a.mp4", "", "", "pending", 7⟩] ∧
    getQueue commentReading
        [⟨"a", "videos/a.mp4", "", "", "pending", 7⟩,
          ⟨"b", "videos/b.mp4", "", "", "pending", 7⟩] none none
        (.ok ⟨1, 10, "' OR true ORDER BY 1 DESC --"⟩) =
      ⟨StatusOK, .queue
        ⟨[⟨"b", "videos/b.mp4", "", "", "pending", 7⟩, ⟨"a", "videos/a.mp4", "", "", "pending", 7⟩],
          [], [], 2⟩ ⟨1, 10, 2, 1⟩⟩ ∧
    codePoints.le "videos/b.mp4" "videos/a.mp4" = false := by
  refine ⟨by decide, by decide, by decide, by rfl, by decide, by decide⟩

end Backend
